import Mathlib

/-!
A verification development for the `ts-mysql-analyzer` MySQL static analyzer.

The analyzer consumes parsed SQL statements (statement offsets, lexer and
parser errors, and resolved table/column/value/alias references) together
with an optional database schema, and produces an ordered list of
diagnostics.  The embedding below mirrors the analyzer's data model and the
semantic-analysis pipeline: the type-compatibility check
(`invalidAssignment`), the index-advisory check (`missingIndex`), schema
lookup through aliases (`getSchemaTable`, `getSchemaColumn`), the
edit-distance correction (`autocorrect`, `getCorrection`, with Levenshtein
distance `leven`), and the diagnostic assembler (`analyze` with its phases
`analyzeSyntax`, `analyzeSemantics`, `analyzeTables`, `analyzeColumns`,
`analyzeColumn`).

External collaborators are passed as parameters: the statement splitter and
the per-statement parser are function arguments of `analyze`, and the host
date parser (JavaScript `new Date(...)` validity) is the `dateOk` argument
threaded to `invalidAssignment`.
-/

/-- A table reference parsed out of a statement: the table name as written,
with source offsets relative to the statement. -/
structure TableReference where
  table : String
  start : Nat
  stop : Nat
deriving DecidableEq, Repr

/-- A column reference: a column name, optionally qualified by the owning
table reference, with a usage context tag such as "fieldsClause" or
"whereClause". -/
structure ColumnReference where
  column : String
  context : String
  tableReference : Option TableReference
  start : Nat
  stop : Nat
deriving DecidableEq, Repr

/-- A literal value reference: its literal text, inferred primitive type
("string" | "number" | "boolean" | "date" | "null"), usage context tag, and
an optional link to the column it is assigned or compared to. -/
structure ValueReference where
  value : String
  dataType : String
  context : String
  columnReference : Option ColumnReference
  start : Nat
  stop : Nat
deriving DecidableEq, Repr

/-- An alias reference: an alias name mapped to the table or column
reference it stands for. -/
structure AliasReference where
  «alias» : String
  tableReference : Option TableReference
  columnReference : Option ColumnReference
deriving DecidableEq, Repr

/-- A schema column: name, declared semantic type (`tsType`), declared
storage type (`sqlType`, used only to special-case JSON), optionality flag,
and index presence (`none` models a `null` index). -/
structure SchemaColumn where
  name : String
  tsType : String
  sqlType : String
  optional : Bool
  index : Option String
deriving DecidableEq, Repr

/-- A schema table: a name and its columns. -/
structure SchemaTable where
  name : String
  columns : List SchemaColumn
deriving DecidableEq, Repr

/-- The schema configuration; `schema` is the database name. -/
structure SchemaConfig where
  schema : String
deriving DecidableEq, Repr

/-- A database schema: configuration plus tables. -/
structure Schema where
  config : SchemaConfig
  tables : List SchemaTable
deriving DecidableEq, Repr

/-- The reference bundle the parser produces for one statement. -/
structure References where
  tableReferences : List TableReference
  columnReferences : List ColumnReference
  valueReferences : List ValueReference
  aliasReferences : List AliasReference
deriving DecidableEq, Repr

/-- The offending token of a parser error, with source offsets relative to
the statement. -/
structure OffendingToken where
  startIndex : Nat
  stopIndex : Nat
deriving DecidableEq, Repr

/-- A lexer error reported by the external parser. -/
structure LexerError where
  message : String
deriving DecidableEq, Repr

/-- The data carried by a parser error: the offending token, when one is
identifiable. -/
structure ParserErrorData where
  offendingToken : Option OffendingToken
deriving DecidableEq, Repr

/-- A parser error reported by the external parser. -/
structure ParserError where
  message : String
  data : ParserErrorData
deriving DecidableEq, Repr

/-- The statement classification returned by `parser.getQueryType`; only
`QtInsert` is distinguished by the analyzer. -/
inductive MySQLQueryType where
  | QtUnknown
  | QtSelect
  | QtInsert
  | QtUpdate
  | QtDelete
deriving DecidableEq, Repr

/-- The result of parsing one statement: optional lexer and parser errors,
the reference bundle, and the statement classification (`isDDL` models
`parser.isDDL(result)`, `queryType` models `parser.getQueryType(result)`). -/
structure ParseResult where
  lexerError : Option LexerError
  parserError : Option ParserError
  references : References
  isDDL : Bool
  queryType : MySQLQueryType
deriving DecidableEq, Repr

/-- One statement produced by the external splitter: its text and its
offsets in the whole input. -/
structure Statement where
  text : String
  start : Nat
  stop : Nat
deriving DecidableEq, Repr

/-- The severity of a diagnostic. -/
inductive DiagnosticSeverity where
  | Warning
  | Error
  | Suggestion
deriving DecidableEq, Repr

/-- A diagnostic uncovered during analysis. -/
structure Diagnostic where
  severity : DiagnosticSeverity
  message : String
  start : Nat
  stop : Nat
  code : Nat
deriving DecidableEq, Repr

namespace DiagnosticCode

/-- An empty MySQL query. -/
def EmptyQuery : Nat := 1000

/-- A query that contains a lexer error. -/
def LexerError : Nat := 1001

/-- A query that contains a parser error. -/
def ParserError : Nat := 1002

/-- A mismatch in the number of rows and columns in an INSERT statement. -/
def ColumnRowMismatch : Nat := 1003

/-- A table reference that does not exist in the schema. -/
def MissingTable : Nat := 1004

/-- A column reference that does not exist in the referenced table. -/
def MissingColumn : Nat := 1005

/-- An invalid type assignment. -/
def TypeMismatch : Nat := 1006

/-- A missing database index for a referenced column. -/
def MissingIndex : Nat := 1007

end DiagnosticCode

/-- Levenshtein edit distance between two strings, with unit costs (the
`leven` package the analyzer uses). -/
def leven (a b : String) : Nat :=
  levenshtein Levenshtein.defaultCost a.toList b.toList

/-- The type-compatibility check: `true` when the value may not be assigned
to the column.  `dateOk s` models JavaScript
`!isNaN(new Date(s).getTime())`: the string parses as a valid date. -/
def invalidAssignment (dateOk : String → Bool) (schemaColumn : SchemaColumn)
    (valueRef : ValueReference) : Bool :=
  if valueRef.dataType == "null" && schemaColumn.optional then
    false
  else if schemaColumn.tsType == "date" then
    let invalidKind := valueRef.dataType != "date" && valueRef.dataType != "string"
    let invalidDateString := valueRef.dataType == "string" && !(dateOk valueRef.value)
    invalidKind || invalidDateString
  else
    valueRef.dataType != schemaColumn.tsType

/-- The index-advisory check: `true` when the referenced column lacks a
supporting index for a WHERE-clause use (JSON columns exempt). -/
def missingIndex (schemaColumn : SchemaColumn) (valueRef : ValueReference) : Bool :=
  if schemaColumn.sqlType == "json" then
    false
  else
    valueRef.context == "whereClause" && schemaColumn.index.isNone

/-- Resolve a table name against the schema tables: exact name match first,
otherwise one level of alias indirection. -/
def getSchemaTable (tableName : String) (tables : List SchemaTable)
    (aliasRefs : List AliasReference) : Option SchemaTable :=
  match tables.find? (fun t => t.name == tableName) with
  | some schemaTable => some schemaTable
  | none =>
    match aliasRefs.find? (fun r => r.«alias» == tableName) with
    | some tableAlias =>
        tables.find? (fun t => tableAlias.tableReference.any (fun tr => t.name == tr.table))
    | none => none

/-- Resolve a column name against a table's columns: exact name match
first, otherwise one level of alias indirection. -/
def getSchemaColumn (columnName : String) (schemaColumns : List SchemaColumn)
    (aliasRefs : List AliasReference) : Option SchemaColumn :=
  match schemaColumns.find? (fun c => c.name == columnName) with
  | some schemaColumn => some schemaColumn
  | none =>
    match aliasRefs.find? (fun r => r.«alias» == columnName) with
    | some columnAlias =>
        schemaColumns.find? (fun c => columnAlias.columnReference.any (fun cr => c.name == cr.column))
    | none => none

/-- The scan loop of `autocorrect`: `bestWord` and `min?` accumulate the
best candidate seen so far and its distance (JavaScript `null` is `none`;
the `m == 0` disjunct mirrors the falsiness of `0` in `!min`). -/
def autocorrectGo (inputWord : String) : List String → Option String → Option Nat → Option String
  | [], bestWord, _ => bestWord
  | word :: words, bestWord, min? =>
    let distance := leven inputWord word
    if distance = 0 then
      some word
    else if (match min? with
             | none => true
             | some m => m == 0 || decide (distance < m)) then
      autocorrectGo inputWord words (some word) (some distance)
    else
      autocorrectGo inputWord words bestWord min?

/-- Scan the candidates for the closest match to `inputWord`: exact match
short-circuits, strict improvements overwrite, ties keep the earlier
candidate. -/
def autocorrect (inputWord : String) (words : List String) : Option String :=
  autocorrectGo inputWord words none none

/-- The public correction entry point: the empty string encodes "no
correction" (a `null` or falsy best word, or a best word equal to the
input, yields no correction). -/
def getCorrection (word : String) (words : List String) : String :=
  match autocorrect word words with
  | none => ""
  | some correction =>
    if correction == "" then ""
    else if correction == word then ""
    else correction

/-- Specification-side fold: the first candidate of `b :: cs` with strictly
minimal `leven w` distance (strict improvements overwrite, ties keep the
earlier candidate).  `autocorrect` is proved to compute this. -/
def foldBest (w : String) (b : String) : List String → String
  | [] => b
  | c :: cs => if leven w c < leven w b then foldBest w c cs else foldBest w b cs

/-- The message of a missing-table diagnostic, with its optional
"Did you mean" suffix. -/
def missingTableMessage (table databaseName correction : String) : String :=
  "Table \x27" ++ table ++ "\x27 does not exist in database \x27" ++ databaseName ++ "\x27."
    ++ (if correction != "" then " Did you mean \x27" ++ correction ++ "\x27?" else "")

/-- The message of a missing-column diagnostic, with its optional
"Did you mean" suffix. -/
def missingColumnMessage (column tableName correction : String) : String :=
  "Column \x27" ++ column ++ "\x27 does not exist in table \x27" ++ tableName ++ "\x27."
    ++ (if correction != "" then " Did you mean \x27" ++ correction ++ "\x27?" else "")

/-- Per-column analysis: run the type-compatibility and index-advisory
checks against the value reference linked to the column, when there is
one. -/
def analyzeColumn (dateOk : String → Bool) (statement : Statement)
    (schemaColumn : SchemaColumn) (columnRef : ColumnReference)
    (valueRef : Option ValueReference) : List Diagnostic :=
  match valueRef with
  | none => []
  | some v =>
    (if invalidAssignment dateOk schemaColumn v then
      [{ severity := .Warning
         message := "Type " ++ v.dataType ++ " is not assignable to type "
           ++ schemaColumn.tsType ++ "."
         start := statement.start + v.start
         stop := statement.start + v.stop
         code := DiagnosticCode.TypeMismatch }]
    else []) ++
    (if missingIndex schemaColumn v then
      [{ severity := .Suggestion
         message := "You can optimize this query by adding a MySQL index for column \x27"
           ++ schemaColumn.name ++ "\x27."
         start := statement.start + columnRef.start
         stop := statement.start + columnRef.stop
         code := DiagnosticCode.MissingIndex }]
    else [])

/-- Per-table column analysis: resolve each column reference, emit a
missing-column diagnostic when unresolved, otherwise analyze the first
value reference linked to the column. -/
def analyzeColumns (dateOk : String → Bool) (statement : Statement)
    (schemaTable : SchemaTable) (columnRefs : List ColumnReference)
    (valueRefs : List ValueReference) (aliasRefs : List AliasReference) : List Diagnostic :=
  columnRefs.flatMap fun columnRef =>
    match getSchemaColumn columnRef.column schemaTable.columns aliasRefs with
    | some schemaColumn =>
        analyzeColumn dateOk statement schemaColumn columnRef
          (valueRefs.find? (fun r => r.columnReference.any (fun cr => cr.column == columnRef.column)))
    | none =>
        [{ severity := .Warning
           message := missingColumnMessage columnRef.column schemaTable.name
             (getCorrection columnRef.column.toLower (schemaTable.columns.map (fun c => c.name)))
           start := statement.start + columnRef.start
           stop := statement.start + columnRef.stop
           code := DiagnosticCode.MissingColumn }]

/-- Table analysis: resolve each table reference, emit a missing-table
diagnostic when unresolved, otherwise analyze the columns and values that
belong to it. -/
def analyzeTables (s : Schema) (dateOk : String → Bool) (statement : Statement)
    (references : References) : List Diagnostic :=
  references.tableReferences.flatMap fun tableRef =>
    match getSchemaTable tableRef.table s.tables references.aliasReferences with
    | some schemaTable =>
        analyzeColumns dateOk statement schemaTable
          (references.columnReferences.filter
            (fun r => r.tableReference.any (fun tr => tr.table == tableRef.table)))
          (references.valueReferences.filter
            (fun r => r.columnReference.any
              (fun cr => cr.tableReference.any (fun tr => tr.table == tableRef.table))))
          references.aliasReferences
    | none =>
        [{ severity := .Warning
           message := missingTableMessage tableRef.table s.config.schema
             (getCorrection tableRef.table.toLower (s.tables.map (fun t => t.name)))
           start := statement.start + tableRef.start
           stop := statement.start + tableRef.stop
           code := DiagnosticCode.MissingTable }]

/-- Semantic analysis of one statement: skipped for DDL, then the INSERT
arity check, then (only when a schema was supplied) table analysis. -/
def analyzeSemantics (schema : Option Schema) (dateOk : String → Bool)
    (statement : Statement) (result : ParseResult) : List Diagnostic :=
  if result.isDDL then []
  else
    let insertDiags :=
      if result.queryType = MySQLQueryType.QtInsert then
        let fieldsClauseRefs :=
          result.references.columnReferences.filter (fun r => r.context == "fieldsClause")
        let valuesClauseValues :=
          result.references.valueReferences.filter (fun r => r.context == "valuesClause")
        if fieldsClauseRefs.length ≠ valuesClauseValues.length then
          [{ severity := .Warning
             message := "Column count does not match row count."
             start := statement.start
             stop := statement.stop
             code := DiagnosticCode.ColumnRowMismatch }]
        else []
      else []
    match schema with
    | none => insertDiags
    | some s => insertDiags ++ analyzeTables s dateOk statement result.references

/-- Syntax analysis of one statement: a lexer-error diagnostic spanning the
statement, then a parser-error diagnostic spanning the offending token
(shifted by the statement start, defaulting to the statement start). -/
def analyzeSyntax (statement : Statement) (result : ParseResult) : List Diagnostic :=
  (match result.lexerError with
   | some e =>
      [{ severity := .Error
         message := e.message
         start := statement.start
         stop := statement.stop
         code := DiagnosticCode.LexerError }]
   | none => []) ++
  (match result.parserError with
   | some pe =>
      [{ severity := .Error
         message := pe.message
         start := statement.start + ((pe.data.offendingToken.map (fun t => t.startIndex)).getD 0)
         stop := statement.start + ((pe.data.offendingToken.map (fun t => t.stopIndex)).getD 0)
         code := DiagnosticCode.ParserError }]
   | none => [])

/-- The analyzer entry point.  `schema` is the optional schema configured at
construction; `split` and `parse` are the external statement splitter and
parser; `dateOk` is the host date parser. -/
def analyze (schema : Option Schema) (dateOk : String → Bool)
    (split : String → List Statement) (parse : String → ParseResult)
    (text : String) : List Diagnostic :=
  if text = "" then
    [{ severity := .Error
       message := "MySQL query is empty."
       start := 0
       stop := text.length
       code := DiagnosticCode.EmptyQuery }]
  else
    (split text).flatMap fun statement =>
      let result := parse statement.text
      analyzeSyntax statement result ++ analyzeSemantics schema dateOk statement result

/-! ### Levenshtein distance facts -/

lemma levenshtein_defaultCost_eq_zero_iff (xs : List Char) :
    ∀ ys : List Char, levenshtein Levenshtein.defaultCost xs ys = 0 ↔ xs = ys := by
  induction xs with
  | nil =>
    intro ys
    cases ys with
    | nil => simp
    | cons y ys => simp
  | cons x xs ih =>
    intro ys
    cases ys with
    | nil => simp
    | cons y ys =>
      rw [levenshtein_cons_cons]
      by_cases hxy : x = y
      · subst hxy
        simp [Nat.min_eq_zero_iff, ih]
      · simp [hxy, Nat.min_eq_zero_iff, ih]

lemma leven_eq_zero_iff (a b : String) : leven a b = 0 ↔ a = b := by
  unfold leven
  rw [levenshtein_defaultCost_eq_zero_iff]
  constructor
  · intro h
    cases a
    cases b
    simp only [String.toList] at h
    rw [h]
  · intro h
    rw [h]

lemma leven_self (a : String) : leven a a = 0 :=
  (leven_eq_zero_iff a a).mpr rfl

/-- C1: `invalidAssignment(c, v)` returns false exactly when: the value is
null and the column optional; or the column is a date column and the value
a date; or the column is a date column, the value a string, and the string
parses as a valid date; or the column is not a date column and the value's
inferred type equals the declared type exactly. -/
theorem invalidAssignment_spec (dateOk : String → Bool) (c : SchemaColumn)
    (v : ValueReference) :
    invalidAssignment dateOk c v = false ↔
      ((v.dataType = "null" ∧ c.optional = true) ∨
       (c.tsType = "date" ∧ v.dataType = "date") ∨
       (c.tsType = "date" ∧ v.dataType = "string" ∧ dateOk v.value = true) ∨
       (c.tsType ≠ "date" ∧ v.dataType = c.tsType)) := by
  unfold invalidAssignment
  by_cases h1 : v.dataType = "null" ∧ c.optional = true
  · obtain ⟨h1a, h1b⟩ := h1
    simp [h1a, h1b]
  · by_cases h2 : c.tsType = "date"
    · simp only [h2, beq_self_eq_true, if_true]
      by_cases h3 : v.dataType = "null"
      · have h1b : c.optional = false := by
          cases hco : c.optional
          · rfl
          · exact absurd ⟨h3, hco⟩ h1
        simp [h3, h1b, h2]
      · by_cases h4 : v.dataType = "date"
        · simp [h4, h2, h3]
        · by_cases h5 : v.dataType = "string"
          · simp [h5, h4, h2, h3]
          · simp [h5, h4, h2, h3]
    · have hnn : ¬(v.dataType == "null" && c.optional) = true := by
        intro hc
        rw [Bool.and_eq_true, beq_iff_eq] at hc
        exact h1 ⟨hc.1, hc.2⟩
      simp only [hnn, if_false, h2]
      simp [h2, bne_iff_ne]
      intro ha hb
      exact absurd ⟨ha, hb⟩ h1

/-! ### The edit-distance matcher computes a first-wins argmin -/

lemma foldBest_mem (w : String) (cs : List String) :
    ∀ b : String, foldBest w b cs ∈ b :: cs := by
  induction cs with
  | nil =>
    intro b
    simp [foldBest]
  | cons c cs ih =>
    intro b
    simp only [foldBest]
    by_cases h : leven w c < leven w b
    · rw [if_pos h]
      exact List.mem_cons_of_mem b (ih c)
    · rw [if_neg h]
      rcases List.mem_cons.mp (ih b) with h1 | h1
      · rw [h1]
        exact List.mem_cons_self b (c :: cs)
      · exact List.mem_cons_of_mem b (List.mem_cons_of_mem c h1)

lemma foldBest_min (w : String) (cs : List String) :
    ∀ b : String, ∀ d ∈ b :: cs, leven w (foldBest w b cs) ≤ leven w d := by
  induction cs with
  | nil =>
    intro b d hd
    rcases List.mem_cons.mp hd with h1 | h1
    · rw [h1]
      simp [foldBest]
    · exact absurd h1 (List.not_mem_nil d)
  | cons c cs ih =>
    intro b d hd
    simp only [foldBest]
    by_cases h : leven w c < leven w b
    · rw [if_pos h]
      rcases List.mem_cons.mp hd with h1 | h1
      · rw [h1]
        calc leven w (foldBest w c cs) ≤ leven w c := ih c c (List.mem_cons_self c cs)
          _ ≤ leven w b := Nat.le_of_lt h
      · exact ih c d h1
    · rw [if_neg h]
      rcases List.mem_cons.mp hd with h1 | h1
      · rw [h1]
        exact ih b b (List.mem_cons_self b cs)
      · rcases List.mem_cons.mp h1 with h2 | h2
        · rw [h2]
          calc leven w (foldBest w b cs) ≤ leven w b := ih b b (List.mem_cons_self b cs)
            _ ≤ leven w c := Nat.le_of_not_lt h
        · exact ih b d (List.mem_cons_of_mem b h2)

lemma foldBest_of_zero (w : String) (cs : List String) :
    ∀ b : String, leven w b = 0 → foldBest w b cs = b := by
  induction cs with
  | nil =>
    intro b _
    rfl
  | cons c cs ih =>
    intro b hb
    have h : ¬(leven w c < leven w b) := by
      rw [hb]
      exact Nat.not_lt_zero _
    simp only [foldBest]
    rw [if_neg h]
    exact ih b hb

lemma foldBest_decomp (w : String) (cs : List String) :
    ∀ b : String, ∃ l₁ l₂, b :: cs = l₁ ++ foldBest w b cs :: l₂ ∧
      ∀ d ∈ l₁, leven w (foldBest w b cs) < leven w d := by
  induction cs with
  | nil =>
    intro b
    exact ⟨[], [], by simp [foldBest], by simp⟩
  | cons c cs ih =>
    intro b
    simp only [foldBest]
    by_cases h : leven w c < leven w b
    · rw [if_pos h]
      obtain ⟨l₁, l₂, heq, hlt⟩ := ih c
      refine ⟨b :: l₁, l₂, ?_, ?_⟩
      · rw [List.cons_append, ← heq]
      · intro d hd
        rcases List.mem_cons.mp hd with h1 | h1
        · rw [h1]
          calc leven w (foldBest w c cs) ≤ leven w c := foldBest_min w cs c c (List.mem_cons_self c cs)
            _ < leven w b := h
        · exact hlt d h1
    · rw [if_neg h]
      obtain ⟨l₁, l₂, heq, hlt⟩ := ih b
      cases l₁ with
      | nil =>
        rw [List.nil_append] at heq
        injection heq with h1 h2
        refine ⟨[], c :: cs, by rw [List.nil_append, ← h1], by simp⟩
      | cons x l₁ =>
        rw [List.cons_append] at heq
        injection heq with h1 h2
        refine ⟨b :: c :: l₁, l₂, ?_, ?_⟩
        · conv_lhs => rw [h2]
          simp
        · intro d hd
          have hxb : leven w (foldBest w b cs) < leven w b := by
            have := hlt x (List.mem_cons_self x l₁)
            rw [← h1] at this
            exact this
          rcases List.mem_cons.mp hd with hb1 | hb1
          · rw [hb1]
            exact hxb
          · rcases List.mem_cons.mp hb1 with hb2 | hb2
            · rw [hb2]
              exact Nat.lt_of_lt_of_le hxb (Nat.le_of_not_lt h)
            · exact hlt d (List.mem_cons_of_mem x hb2)

lemma autocorrectGo_eq (w : String) (cs : List String) :
    ∀ (b : String) (m : Nat), m = leven w b → 1 ≤ m →
      autocorrectGo w cs (some b) (some m) = some (foldBest w b cs) := by
  induction cs with
  | nil =>
    intro b m _ _
    rfl
  | cons c cs ih =>
    intro b m hm hm1
    have hbpos : 0 < leven w b := by
      rw [← hm]
      exact hm1
    simp only [autocorrectGo]
    by_cases h0 : leven w c = 0
    · rw [if_pos h0]
      have hlt : leven w c < leven w b := by
        rw [h0]
        exact hbpos
      rw [show foldBest w b (c :: cs) = foldBest w c cs from by simp only [foldBest]; rw [if_pos hlt]]
      rw [foldBest_of_zero w cs c h0]
    · rw [if_neg h0]
      have hm0 : (m == 0) = false := by
        simp
        omega
      by_cases hlt : leven w c < m
      · have hcond : (m == 0 || decide (leven w c < m)) = true := by
          rw [hm0]
          simp [hlt]
        rw [if_pos hcond]
        rw [ih c (leven w c) rfl (Nat.one_le_iff_ne_zero.mpr h0)]
        have hlt' : leven w c < leven w b := by
          rw [← hm]
          exact hlt
        rw [show foldBest w b (c :: cs) = foldBest w c cs from by simp only [foldBest]; rw [if_pos hlt']]
      · have hcond : (m == 0 || decide (leven w c < m)) = false := by
          rw [hm0]
          simp [hlt]
        rw [if_neg (by rw [hcond]; exact Bool.false_ne_true)]
        rw [ih b m hm hm1]
        have hlt' : ¬(leven w c < leven w b) := by
          rw [← hm]
          exact hlt
        rw [show foldBest w b (c :: cs) = foldBest w b cs from by simp only [foldBest]; rw [if_neg hlt']]

lemma autocorrect_nil (w : String) : autocorrect w [] = none := rfl

lemma autocorrect_cons (w c : String) (cs : List String) :
    autocorrect w (c :: cs) = some (foldBest w c cs) := by
  unfold autocorrect
  simp only [autocorrectGo]
  by_cases h0 : leven w c = 0
  · rw [if_pos h0, foldBest_of_zero w cs c h0]
  · rw [if_neg h0]
    exact autocorrectGo_eq w cs c (leven w c) rfl (Nat.one_le_iff_ne_zero.mpr h0)

/-- C2: `getCorrection(w, ws)` returns no correction (the empty string) when
`ws` is empty or when the minimum-Levenshtein-distance candidate equals `w`
(in particular when some candidate is at distance 0 from `w`); otherwise it
returns the candidate of minimum Levenshtein distance, where on ties the
first candidate encountered wins (every earlier candidate is at strictly
greater distance); the function is total. -/
theorem getCorrection_spec (w : String) (ws : List String) :
    (ws = [] ∧ getCorrection w ws = "") ∨
    ∃ b l₁ l₂,
      autocorrect w ws = some b ∧
      ws = l₁ ++ b :: l₂ ∧
      (∀ c ∈ ws, leven w b ≤ leven w c) ∧
      (∀ c ∈ l₁, leven w b < leven w c) ∧
      getCorrection w ws = (if b = w then "" else b) ∧
      (∀ c ∈ ws, leven w c = 0 → b = w) ∧
      (w ∈ ws → b = w) := by
  cases ws with
  | nil => exact Or.inl ⟨rfl, rfl⟩
  | cons c cs =>
    right
    obtain ⟨l₁, l₂, heq, hlt⟩ := foldBest_decomp w cs c
    refine ⟨foldBest w c cs, l₁, l₂, autocorrect_cons w c cs, heq,
      foldBest_min w cs c, hlt, ?_, ?_, ?_⟩
    · unfold getCorrection
      rw [autocorrect_cons w c cs]
      by_cases hb : foldBest w c cs = ""
      · simp [hb]
      · simp [hb]
    · intro d hd hdz
      have hle : leven w (foldBest w c cs) ≤ 0 := hdz ▸ foldBest_min w cs c d hd
      exact ((leven_eq_zero_iff w _).mp (Nat.le_zero.mp hle)).symm
    · intro hw
      have hle : leven w (foldBest w c cs) ≤ 0 := leven_self w ▸ foldBest_min w cs c w hw
      exact ((leven_eq_zero_iff w _).mp (Nat.le_zero.mp hle)).symm

/-- C3: name resolution returns the first schema entity whose declared name
equals the name exactly; otherwise it consults the first alias reference
whose alias equals the name and retries the exact lookup against that
alias's underlying table (column) name; otherwise none.  Exactly one level
of alias indirection is followed: the retried lookup is again the plain
declared-name lookup, so an underlying name that is itself only an alias
resolves to none. -/
theorem schema_lookup_spec :
    (∀ (n : String) (S : List SchemaTable) (A : List AliasReference),
      (∀ t, S.find? (fun t => t.name == n) = some t → getSchemaTable n S A = some t) ∧
      (S.find? (fun t => t.name == n) = none →
        A.find? (fun r => r.«alias» == n) = none → getSchemaTable n S A = none) ∧
      (∀ a, S.find? (fun t => t.name == n) = none →
        A.find? (fun r => r.«alias» == n) = some a → a.tableReference = none →
        getSchemaTable n S A = none) ∧
      (∀ a tr, S.find? (fun t => t.name == n) = none →
        A.find? (fun r => r.«alias» == n) = some a → a.tableReference = some tr →
        getSchemaTable n S A = S.find? (fun t => t.name == tr.table))) ∧
    (∀ (n : String) (S : List SchemaColumn) (A : List AliasReference),
      (∀ c, S.find? (fun c => c.name == n) = some c → getSchemaColumn n S A = some c) ∧
      (S.find? (fun c => c.name == n) = none →
        A.find? (fun r => r.«alias» == n) = none → getSchemaColumn n S A = none) ∧
      (∀ a, S.find? (fun c => c.name == n) = none →
        A.find? (fun r => r.«alias» == n) = some a → a.columnReference = none →
        getSchemaColumn n S A = none) ∧
      (∀ a cr, S.find? (fun c => c.name == n) = none →
        A.find? (fun r => r.«alias» == n) = some a → a.columnReference = some cr →
        getSchemaColumn n S A = S.find? (fun c => c.name == cr.column))) := by
  constructor
  · intro n S A
    refine ⟨?_, ?_, ?_, ?_⟩
    · intro t ht
      unfold getSchemaTable
      rw [ht]
    · intro hS hA
      unfold getSchemaTable
      rw [hS, hA]
    · intro a hS hA ha
      unfold getSchemaTable
      rw [hS, hA]
      simp [ha]
    · intro a tr hS hA ha
      unfold getSchemaTable
      rw [hS, hA]
      simp [ha]
  · intro n S A
    refine ⟨?_, ?_, ?_, ?_⟩
    · intro c hc
      unfold getSchemaColumn
      rw [hc]
    · intro hS hA
      unfold getSchemaColumn
      rw [hS, hA]
    · intro a hS hA ha
      unfold getSchemaColumn
      rw [hS, hA]
      simp [ha]
    · intro a cr hS hA ha
      unfold getSchemaColumn
      rw [hS, hA]
      simp [ha]

/-! ### Which (code, severity) pairs each phase can emit -/

lemma analyzeColumn_code_severity (dateOk : String → Bool) (stmt : Statement)
    (sc : SchemaColumn) (cr : ColumnReference) (v? : Option ValueReference) :
    ∀ d ∈ analyzeColumn dateOk stmt sc cr v?,
      (d.code = DiagnosticCode.TypeMismatch ∧ d.severity = DiagnosticSeverity.Warning) ∨
      (d.code = DiagnosticCode.MissingIndex ∧ d.severity = DiagnosticSeverity.Suggestion) := by
  intro d hd
  unfold analyzeColumn at hd
  cases v? with
  | none => exact absurd hd (List.not_mem_nil d)
  | some v =>
    rcases List.mem_append.mp hd with h | h
    · by_cases hi : invalidAssignment dateOk sc v = true
      · rw [if_pos hi] at h
        have := List.mem_singleton.mp h
        subst this
        exact Or.inl ⟨rfl, rfl⟩
      · rw [if_neg hi] at h
        exact absurd h (List.not_mem_nil d)
    · by_cases hi : missingIndex sc v = true
      · rw [if_pos hi] at h
        have := List.mem_singleton.mp h
        subst this
        exact Or.inr ⟨rfl, rfl⟩
      · rw [if_neg hi] at h
        exact absurd h (List.not_mem_nil d)

lemma analyzeColumns_code_severity (dateOk : String → Bool) (stmt : Statement)
    (st : SchemaTable) (crs : List ColumnReference) (vs : List ValueReference)
    (as' : List AliasReference) :
    ∀ d ∈ analyzeColumns dateOk stmt st crs vs as',
      (d.code = DiagnosticCode.MissingColumn ∧ d.severity = DiagnosticSeverity.Warning) ∨
      (d.code = DiagnosticCode.TypeMismatch ∧ d.severity = DiagnosticSeverity.Warning) ∨
      (d.code = DiagnosticCode.MissingIndex ∧ d.severity = DiagnosticSeverity.Suggestion) := by
  intro d hd
  unfold analyzeColumns at hd
  rw [List.mem_flatMap] at hd
  obtain ⟨cr, _, hd⟩ := hd
  cases hcol : getSchemaColumn cr.column st.columns as' with
  | some sc =>
    rw [hcol] at hd
    rcases analyzeColumn_code_severity dateOk stmt sc cr _ d hd with h | h
    · exact Or.inr (Or.inl h)
    · exact Or.inr (Or.inr h)
  | none =>
    rw [hcol] at hd
    have := List.mem_singleton.mp hd
    subst this
    exact Or.inl ⟨rfl, rfl⟩

lemma analyzeTables_code_severity (s : Schema) (dateOk : String → Bool)
    (stmt : Statement) (refs : References) :
    ∀ d ∈ analyzeTables s dateOk stmt refs,
      (d.code = DiagnosticCode.MissingTable ∧ d.severity = DiagnosticSeverity.Warning) ∨
      (d.code = DiagnosticCode.MissingColumn ∧ d.severity = DiagnosticSeverity.Warning) ∨
      (d.code = DiagnosticCode.TypeMismatch ∧ d.severity = DiagnosticSeverity.Warning) ∨
      (d.code = DiagnosticCode.MissingIndex ∧ d.severity = DiagnosticSeverity.Suggestion) := by
  intro d hd
  unfold analyzeTables at hd
  rw [List.mem_flatMap] at hd
  obtain ⟨tr, _, hd⟩ := hd
  cases htab : getSchemaTable tr.table s.tables refs.aliasReferences with
  | some st =>
    rw [htab] at hd
    rcases analyzeColumns_code_severity dateOk stmt st _ _ _ d hd with h | h | h
    · exact Or.inr (Or.inl h)
    · exact Or.inr (Or.inr (Or.inl h))
    · exact Or.inr (Or.inr (Or.inr h))
  | none =>
    rw [htab] at hd
    have := List.mem_singleton.mp hd
    subst this
    exact Or.inl ⟨rfl, rfl⟩

lemma analyzeSemantics_code_severity (schema : Option Schema) (dateOk : String → Bool)
    (stmt : Statement) (res : ParseResult) :
    ∀ d ∈ analyzeSemantics schema dateOk stmt res,
      (d.code = DiagnosticCode.ColumnRowMismatch ∧ d.severity = DiagnosticSeverity.Warning) ∨
      (d.code = DiagnosticCode.MissingTable ∧ d.severity = DiagnosticSeverity.Warning) ∨
      (d.code = DiagnosticCode.MissingColumn ∧ d.severity = DiagnosticSeverity.Warning) ∨
      (d.code = DiagnosticCode.TypeMismatch ∧ d.severity = DiagnosticSeverity.Warning) ∨
      (d.code = DiagnosticCode.MissingIndex ∧ d.severity = DiagnosticSeverity.Suggestion) := by
  intro d hd
  unfold analyzeSemantics at hd
  by_cases hddl : res.isDDL = true
  · rw [if_pos hddl] at hd
    exact absurd hd (List.not_mem_nil d)
  · rw [if_neg hddl] at hd
    have harity : ∀ e ∈ (if res.queryType = MySQLQueryType.QtInsert then
        (if (res.references.columnReferences.filter (fun r => r.context == "fieldsClause")).length ≠
            (res.references.valueReferences.filter (fun r => r.context == "valuesClause")).length then
          [{ severity := DiagnosticSeverity.Warning
             message := "Column count does not match row count."
             start := stmt.start
             stop := stmt.stop
             code := DiagnosticCode.ColumnRowMismatch : Diagnostic }]
        else []) else []),
        e.code = DiagnosticCode.ColumnRowMismatch ∧ e.severity = DiagnosticSeverity.Warning := by
      intro e he
      split at he
      · split at he
        · have := List.mem_singleton.mp he
          subst this
          exact ⟨rfl, rfl⟩
        · exact absurd he (List.not_mem_nil e)
      · exact absurd he (List.not_mem_nil e)
    cases schema with
    | none => exact Or.inl (harity d hd)
    | some s =>
      rcases List.mem_append.mp hd with h | h
      · exact Or.inl (harity d h)
      · rcases analyzeTables_code_severity s dateOk stmt res.references d h with h1 | h1 | h1 | h1
        · exact Or.inr (Or.inl h1)
        · exact Or.inr (Or.inr (Or.inl h1))
        · exact Or.inr (Or.inr (Or.inr (Or.inl h1)))
        · exact Or.inr (Or.inr (Or.inr (Or.inr h1)))

lemma analyzeSyntax_code_severity (stmt : Statement) (res : ParseResult) :
    ∀ d ∈ analyzeSyntax stmt res,
      (d.code = DiagnosticCode.LexerError ∧ d.severity = DiagnosticSeverity.Error) ∨
      (d.code = DiagnosticCode.ParserError ∧ d.severity = DiagnosticSeverity.Error) := by
  intro d hd
  unfold analyzeSyntax at hd
  rcases List.mem_append.mp hd with h | h
  · cases hle : res.lexerError with
    | none =>
      rw [hle] at h
      exact absurd h (List.not_mem_nil d)
    | some e =>
      rw [hle] at h
      have := List.mem_singleton.mp h
      subst this
      exact Or.inl ⟨rfl, rfl⟩
  · cases hpe : res.parserError with
    | none =>
      rw [hpe] at h
      exact absurd h (List.not_mem_nil d)
    | some pe =>
      rw [hpe] at h
      have := List.mem_singleton.mp h
      subst this
      exact Or.inr ⟨rfl, rfl⟩

lemma analyze_code_severity (schema : Option Schema) (dateOk : String → Bool)
    (split : String → List Statement) (parse : String → ParseResult) (text : String) :
    ∀ d ∈ analyze schema dateOk split parse text,
      (d.code = DiagnosticCode.EmptyQuery ∧ d.severity = DiagnosticSeverity.Error) ∨
      (d.code = DiagnosticCode.LexerError ∧ d.severity = DiagnosticSeverity.Error) ∨
      (d.code = DiagnosticCode.ParserError ∧ d.severity = DiagnosticSeverity.Error) ∨
      (d.code = DiagnosticCode.ColumnRowMismatch ∧ d.severity = DiagnosticSeverity.Warning) ∨
      (d.code = DiagnosticCode.MissingTable ∧ d.severity = DiagnosticSeverity.Warning) ∨
      (d.code = DiagnosticCode.MissingColumn ∧ d.severity = DiagnosticSeverity.Warning) ∨
      (d.code = DiagnosticCode.TypeMismatch ∧ d.severity = DiagnosticSeverity.Warning) ∨
      (d.code = DiagnosticCode.MissingIndex ∧ d.severity = DiagnosticSeverity.Suggestion) := by
  intro d hd
  unfold analyze at hd
  by_cases ht : text = ""
  · rw [if_pos ht] at hd
    have := List.mem_singleton.mp hd
    subst this
    exact Or.inl ⟨rfl, rfl⟩
  · rw [if_neg ht] at hd
    rw [List.mem_flatMap] at hd
    obtain ⟨stmt, _, hd⟩ := hd
    rcases List.mem_append.mp hd with h | h
    · rcases analyzeSyntax_code_severity stmt (parse stmt.text) d h with h1 | h1
      · exact Or.inr (Or.inl h1)
      · exact Or.inr (Or.inr (Or.inl h1))
    · rcases analyzeSemantics_code_severity schema dateOk stmt (parse stmt.text) d h with
        h1 | h1 | h1 | h1 | h1
      · exact Or.inr (Or.inr (Or.inr (Or.inl h1)))
      · exact Or.inr (Or.inr (Or.inr (Or.inr (Or.inl h1))))
      · exact Or.inr (Or.inr (Or.inr (Or.inr (Or.inr (Or.inl h1)))))
      · exact Or.inr (Or.inr (Or.inr (Or.inr (Or.inr (Or.inr (Or.inl h1))))))
      · exact Or.inr (Or.inr (Or.inr (Or.inr (Or.inr (Or.inr (Or.inr h1))))))

/-- C4: `missingIndex(c, v)` is true iff the value's usage context is
"whereClause", the column has no index, and the column's storage type is
not JSON; whenever it is true the per-column analysis emits the
missing-index diagnostic with severity Suggestion, spanning the column
reference; and every missing-index diagnostic the analyzer ever returns has
severity Suggestion. -/
theorem missingIndex_spec :
    (∀ (c : SchemaColumn) (v : ValueReference),
      missingIndex c v = true ↔
        (v.context = "whereClause" ∧ c.index = none ∧ c.sqlType ≠ "json")) ∧
    (∀ (dateOk : String → Bool) (stmt : Statement) (sc : SchemaColumn)
        (cr : ColumnReference) (v : ValueReference), missingIndex sc v = true →
      ∃ d ∈ analyzeColumn dateOk stmt sc cr (some v),
        d.severity = DiagnosticSeverity.Suggestion ∧ d.code = DiagnosticCode.MissingIndex ∧
        d.start = stmt.start + cr.start ∧ d.stop = stmt.start + cr.stop) ∧
    (∀ (schema : Option Schema) (dateOk : String → Bool) (split : String → List Statement)
        (parse : String → ParseResult) (text : String),
      ∀ d ∈ analyze schema dateOk split parse text,
        d.code = DiagnosticCode.MissingIndex → d.severity = DiagnosticSeverity.Suggestion) := by
  refine ⟨?_, ?_, ?_⟩
  · intro c v
    unfold missingIndex
    by_cases hj : c.sqlType = "json"
    · simp [hj]
    · have hj' : (c.sqlType == "json") = false := by
        simp [hj]
      rw [hj']
      simp [Option.isNone_iff_eq_none, hj]
  · intro dateOk stmt sc cr v hmi
    unfold analyzeColumn
    refine ⟨{ severity := DiagnosticSeverity.Suggestion
              message := "You can optimize this query by adding a MySQL index for column \x27"
                ++ sc.name ++ "\x27."
              start := stmt.start + cr.start
              stop := stmt.start + cr.stop
              code := DiagnosticCode.MissingIndex }, ?_, rfl, rfl, rfl, rfl⟩
    rw [List.mem_append]
    right
    rw [if_pos hmi]
    exact List.mem_singleton.mpr rfl
  · intro schema dateOk split parse text d hd hcode
    rcases analyze_code_severity schema dateOk split parse text d hd with
      ⟨h1, h2⟩ | ⟨h1, h2⟩ | ⟨h1, h2⟩ | ⟨h1, h2⟩ | ⟨h1, h2⟩ | ⟨h1, h2⟩ | ⟨h1, h2⟩ | ⟨h1, h2⟩
    · exact absurd (h1.symm.trans hcode) (by decide)
    · exact absurd (h1.symm.trans hcode) (by decide)
    · exact absurd (h1.symm.trans hcode) (by decide)
    · exact absurd (h1.symm.trans hcode) (by decide)
    · exact absurd (h1.symm.trans hcode) (by decide)
    · exact absurd (h1.symm.trans hcode) (by decide)
    · exact absurd (h1.symm.trans hcode) (by decide)
    · exact h2

/-- C7: the syntax phase emits an Error/LexerError diagnostic spanning the
whole statement exactly when a lexer error is present, and an
Error/ParserError diagnostic exactly when a parser error is present, whose
span is the offending token's offsets shifted by the statement start
(defaulting to the statement start when no offending token exists); when
both are present two diagnostics are emitted, the lexer one first. -/
theorem analyzeSyntax_spec (stmt : Statement) (res : ParseResult) :
    (∀ e, res.lexerError = some e →
      ∃ d ∈ analyzeSyntax stmt res,
        d.severity = DiagnosticSeverity.Error ∧ d.code = DiagnosticCode.LexerError ∧
        d.message = e.message ∧ d.start = stmt.start ∧ d.stop = stmt.stop) ∧
    (res.lexerError = none →
      ∀ d ∈ analyzeSyntax stmt res, d.code ≠ DiagnosticCode.LexerError) ∧
    (∀ pe, res.parserError = some pe →
      ∃ d ∈ analyzeSyntax stmt res,
        d.severity = DiagnosticSeverity.Error ∧ d.code = DiagnosticCode.ParserError ∧
        d.message = pe.message ∧
        d.start = stmt.start + ((pe.data.offendingToken.map (fun t => t.startIndex)).getD 0) ∧
        d.stop = stmt.start + ((pe.data.offendingToken.map (fun t => t.stopIndex)).getD 0)) ∧
    (∀ pe, res.parserError = some pe → pe.data.offendingToken = none →
      ∃ d ∈ analyzeSyntax stmt res, d.code = DiagnosticCode.ParserError ∧
        d.start = stmt.start ∧ d.stop = stmt.start) ∧
    (res.parserError = none →
      ∀ d ∈ analyzeSyntax stmt res, d.code ≠ DiagnosticCode.ParserError) ∧
    (∀ e pe, res.lexerError = some e → res.parserError = some pe →
      ∃ d₁ d₂, analyzeSyntax stmt res = [d₁, d₂] ∧
        d₁.code = DiagnosticCode.LexerError ∧ d₂.code = DiagnosticCode.ParserError) := by
  refine ⟨?_, ?_, ?_, ?_, ?_, ?_⟩
  · intro e he
    unfold analyzeSyntax
    rw [he]
    exact ⟨_, List.mem_append_left _ (List.mem_singleton.mpr rfl), rfl, rfl, rfl, rfl, rfl⟩
  · intro hnone d hd hcode
    unfold analyzeSyntax at hd
    rw [hnone, List.nil_append] at hd
    cases hpe : res.parserError with
    | none =>
      rw [hpe] at hd
      exact absurd hd (List.not_mem_nil d)
    | some pe =>
      rw [hpe] at hd
      have := List.mem_singleton.mp hd
      subst this
      have h' : DiagnosticCode.ParserError = DiagnosticCode.LexerError := hcode
      exact absurd h' (by decide)
  · intro pe hpe
    unfold analyzeSyntax
    rw [hpe]
    exact ⟨_, List.mem_append_right _ (List.mem_singleton.mpr rfl), rfl, rfl, rfl, rfl, rfl⟩
  · intro pe hpe htok
    unfold analyzeSyntax
    rw [hpe]
    refine ⟨_, List.mem_append_right _ (List.mem_singleton.mpr rfl), rfl, ?_, ?_⟩
    · show stmt.start + ((pe.data.offendingToken.map (fun t => t.startIndex)).getD 0) = stmt.start
      rw [htok]
      rfl
    · show stmt.start + ((pe.data.offendingToken.map (fun t => t.stopIndex)).getD 0) = stmt.start
      rw [htok]
      rfl
  · intro hnone d hd hcode
    unfold analyzeSyntax at hd
    rw [hnone, List.append_nil] at hd
    cases hle : res.lexerError with
    | none =>
      rw [hle] at hd
      exact absurd hd (List.not_mem_nil d)
    | some e =>
      rw [hle] at hd
      have := List.mem_singleton.mp hd
      subst this
      have h' : DiagnosticCode.LexerError = DiagnosticCode.ParserError := hcode
      exact absurd h' (by decide)
  · intro e pe he hpe
    unfold analyzeSyntax
    rw [he, hpe]
    exact ⟨_, _, rfl, rfl, rfl⟩

/-- C9: analyzing the empty string returns exactly one diagnostic, an
Error/EmptyQuery spanning [0, 0], regardless of the configured schema and
of the external splitter and parser (neither is consulted). -/
theorem empty_query_spec (schema : Option Schema) (dateOk : String → Bool)
    (split : String → List Statement) (parse : String → ParseResult) :
    analyze schema dateOk split parse "" =
      [{ severity := DiagnosticSeverity.Error
         message := "MySQL query is empty."
         start := 0
         stop := 0
         code := DiagnosticCode.EmptyQuery }] := by
  unfold analyze
  rw [if_pos rfl]
  rfl

lemma analyzeSemantics_none_cases (dateOk : String → Bool) (stmt : Statement)
    (res : ParseResult) :
    analyzeSemantics none dateOk stmt res = [] ∨
    analyzeSemantics none dateOk stmt res =
      [{ severity := DiagnosticSeverity.Warning
         message := "Column count does not match row count."
         start := stmt.start
         stop := stmt.stop
         code := DiagnosticCode.ColumnRowMismatch }] := by
  unfold analyzeSemantics
  by_cases h1 : res.isDDL = true
  · rw [if_pos h1]
    exact Or.inl rfl
  · rw [if_neg h1]
    by_cases h2 : res.queryType = MySQLQueryType.QtInsert
    · rw [if_pos h2]
      by_cases h3 : (res.references.columnReferences.filter (fun r => r.context == "fieldsClause")).length ≠
          (res.references.valueReferences.filter (fun r => r.context == "valuesClause")).length
      · rw [if_pos h3]
        exact Or.inr rfl
      · rw [if_neg h3]
        exact Or.inl rfl
    · rw [if_neg h2]
      exact Or.inl rfl

/-- C6: for a non-DDL statement classified as an INSERT, the semantic phase
emits a Warning/ColumnRowMismatch diagnostic spanning the whole statement
exactly when the number of fields-clause column references differs from the
number of values-clause value references; at most one such diagnostic is
emitted, and the same holds whether or not a schema was supplied. -/
theorem insert_arity_spec (schema : Option Schema) (dateOk : String → Bool)
    (stmt : Statement) (res : ParseResult)
    (hddl : res.isDDL = false) (hq : res.queryType = MySQLQueryType.QtInsert) :
    (analyzeSemantics schema dateOk stmt res).filter
        (fun d => d.code == DiagnosticCode.ColumnRowMismatch) =
      (if (res.references.columnReferences.filter (fun r => r.context == "fieldsClause")).length ≠
          (res.references.valueReferences.filter (fun r => r.context == "valuesClause")).length then
        [{ severity := DiagnosticSeverity.Warning
           message := "Column count does not match row count."
           start := stmt.start
           stop := stmt.stop
           code := DiagnosticCode.ColumnRowMismatch }]
      else []) := by
  have htail : ∀ s : Schema,
      (analyzeTables s dateOk stmt res.references).filter
        (fun d => d.code == DiagnosticCode.ColumnRowMismatch) = [] := by
    intro s
    rw [List.filter_eq_nil_iff]
    intro d hd
    rcases analyzeTables_code_severity s dateOk stmt res.references d hd with
      ⟨h1, _⟩ | ⟨h1, _⟩ | ⟨h1, _⟩ | ⟨h1, _⟩ <;>
      · rw [h1]
        decide
  have harityfilter :
      (if (res.references.columnReferences.filter (fun r => r.context == "fieldsClause")).length ≠
          (res.references.valueReferences.filter (fun r => r.context == "valuesClause")).length then
        [{ severity := DiagnosticSeverity.Warning
           message := "Column count does not match row count."
           start := stmt.start
           stop := stmt.stop
           code := DiagnosticCode.ColumnRowMismatch : Diagnostic }]
      else []).filter (fun d => d.code == DiagnosticCode.ColumnRowMismatch) =
      (if (res.references.columnReferences.filter (fun r => r.context == "fieldsClause")).length ≠
          (res.references.valueReferences.filter (fun r => r.context == "valuesClause")).length then
        [{ severity := DiagnosticSeverity.Warning
           message := "Column count does not match row count."
           start := stmt.start
           stop := stmt.stop
           code := DiagnosticCode.ColumnRowMismatch : Diagnostic }]
      else []) := by
    by_cases h3 : (res.references.columnReferences.filter (fun r => r.context == "fieldsClause")).length ≠
        (res.references.valueReferences.filter (fun r => r.context == "valuesClause")).length
    · rw [if_pos h3]
      rfl
    · rw [if_neg h3]
      rfl
  unfold analyzeSemantics
  rw [if_neg (by rw [hddl]; exact Bool.false_ne_true), if_pos hq]
  cases schema with
  | none => exact harityfilter
  | some s =>
    rw [List.filter_append, htail s, List.append_nil]
    exact harityfilter

/-- C8: with no schema configured, `analyze` never returns a missing-table,
missing-column, type-mismatch or missing-index diagnostic — every
diagnostic is EmptyQuery, LexerError, ParserError or ColumnRowMismatch —
while the syntax diagnostics and the INSERT-arity check of every statement
still reach the output. -/
theorem no_schema_spec (dateOk : String → Bool) (split : String → List Statement)
    (parse : String → ParseResult) (text : String) :
    (∀ d ∈ analyze none dateOk split parse text,
      (d.code = DiagnosticCode.EmptyQuery ∨ d.code = DiagnosticCode.LexerError ∨
       d.code = DiagnosticCode.ParserError ∨ d.code = DiagnosticCode.ColumnRowMismatch) ∧
      d.code ≠ DiagnosticCode.MissingTable ∧ d.code ≠ DiagnosticCode.MissingColumn ∧
      d.code ≠ DiagnosticCode.TypeMismatch ∧ d.code ≠ DiagnosticCode.MissingIndex) ∧
    (∀ stmt : Statement, text ≠ "" → stmt ∈ split text →
      (∀ d ∈ analyzeSyntax stmt (parse stmt.text), d ∈ analyze none dateOk split parse text) ∧
      (∀ d ∈ analyzeSemantics none dateOk stmt (parse stmt.text),
        d ∈ analyze none dateOk split parse text)) := by
  constructor
  · intro d hd
    have hcode : d.code = DiagnosticCode.EmptyQuery ∨ d.code = DiagnosticCode.LexerError ∨
        d.code = DiagnosticCode.ParserError ∨ d.code = DiagnosticCode.ColumnRowMismatch := by
      unfold analyze at hd
      by_cases ht : text = ""
      · rw [if_pos ht] at hd
        have := List.mem_singleton.mp hd
        subst this
        exact Or.inl rfl
      · rw [if_neg ht, List.mem_flatMap] at hd
        obtain ⟨stmt, _, hd⟩ := hd
        rcases List.mem_append.mp hd with h | h
        · rcases analyzeSyntax_code_severity stmt (parse stmt.text) d h with ⟨h1, _⟩ | ⟨h1, _⟩
          · exact Or.inr (Or.inl h1)
          · exact Or.inr (Or.inr (Or.inl h1))
        · rcases analyzeSemantics_none_cases dateOk stmt (parse stmt.text) with he | he
          · rw [he] at h
            exact absurd h (List.not_mem_nil d)
          · rw [he] at h
            have := List.mem_singleton.mp h
            subst this
            exact Or.inr (Or.inr (Or.inr rfl))
    refine ⟨hcode, ?_, ?_, ?_, ?_⟩ <;>
      rcases hcode with h | h | h | h <;> rw [h] <;> decide
  · intro stmt ht hstmt
    constructor
    · intro d hd
      unfold analyze
      rw [if_neg ht, List.mem_flatMap]
      exact ⟨stmt, hstmt, List.mem_append_left _ hd⟩
    · intro d hd
      unfold analyze
      rw [if_neg ht, List.mem_flatMap]
      exact ⟨stmt, hstmt, List.mem_append_right _ hd⟩

/-- C5: when a table reference does not resolve against the schema, the
table phase emits a Warning/MissingTable diagnostic spanning that
reference's offsets, and every missing-column, type-mismatch or
missing-index diagnostic in the phase's output originates from the column
analysis of some table reference that did resolve — whose name therefore
differs from the unresolved one — over the column and value references
belonging to that resolved table. -/
theorem unresolved_table_spec (s : Schema) (dateOk : String → Bool) (stmt : Statement)
    (refs : References) (tr : TableReference)
    (h1 : tr ∈ refs.tableReferences)
    (h2 : getSchemaTable tr.table s.tables refs.aliasReferences = none) :
    (∃ d ∈ analyzeTables s dateOk stmt refs,
      d.severity = DiagnosticSeverity.Warning ∧ d.code = DiagnosticCode.MissingTable ∧
      d.start = stmt.start + tr.start ∧ d.stop = stmt.start + tr.stop) ∧
    (∀ d ∈ analyzeTables s dateOk stmt refs,
      (d.code = DiagnosticCode.MissingColumn ∨ d.code = DiagnosticCode.TypeMismatch ∨
       d.code = DiagnosticCode.MissingIndex) →
      ∃ tr' ∈ refs.tableReferences, ∃ st,
        getSchemaTable tr'.table s.tables refs.aliasReferences = some st ∧
        tr'.table ≠ tr.table ∧
        d ∈ analyzeColumns dateOk stmt st
          (refs.columnReferences.filter
            (fun r => r.tableReference.any (fun t => t.table == tr'.table)))
          (refs.valueReferences.filter
            (fun r => r.columnReference.any
              (fun cr => cr.tableReference.any (fun t => t.table == tr'.table))))
          refs.aliasReferences) := by
  constructor
  · unfold analyzeTables
    refine ⟨{ severity := DiagnosticSeverity.Warning
              message := missingTableMessage tr.table s.config.schema
                (getCorrection tr.table.toLower (s.tables.map (fun t => t.name)))
              start := stmt.start + tr.start
              stop := stmt.start + tr.stop
              code := DiagnosticCode.MissingTable },
      List.mem_flatMap.mpr ⟨tr, h1, ?_⟩, rfl, rfl, rfl, rfl⟩
    rw [h2]
    exact List.mem_singleton.mpr rfl
  · intro d hd hcode
    unfold analyzeTables at hd
    rw [List.mem_flatMap] at hd
    obtain ⟨tr', htr', hd⟩ := hd
    cases htab : getSchemaTable tr'.table s.tables refs.aliasReferences with
    | some st =>
      rw [htab] at hd
      refine ⟨tr', htr', st, htab, ?_, hd⟩
      intro heq
      rw [heq, h2] at htab
      exact Option.noConfusion htab
    | none =>
      rw [htab] at hd
      have := List.mem_singleton.mp hd
      subst this
      rcases hcode with h | h | h
      · exact absurd (show DiagnosticCode.MissingTable = DiagnosticCode.MissingColumn from h) (by decide)
      · exact absurd (show DiagnosticCode.MissingTable = DiagnosticCode.TypeMismatch from h) (by decide)
      · exact absurd (show DiagnosticCode.MissingTable = DiagnosticCode.MissingIndex from h) (by decide)

/-- C10: per analyzed column only the first value reference linked to the
column's name is checked: appending a further value reference whose column
linkage duplicates one already present never changes the column-analysis
output, so such later value references can produce no diagnostic. -/
theorem first_linked_value_spec (dateOk : String → Bool) (stmt : Statement)
    (st : SchemaTable) (crs : List ColumnReference) (vs : List ValueReference)
    (w : ValueReference) (as' : List AliasReference)
    (h : ∃ v ∈ vs, v.columnReference.map (fun c => c.column) =
      w.columnReference.map (fun c => c.column)) :
    analyzeColumns dateOk stmt st crs (vs ++ [w]) as' =
      analyzeColumns dateOk stmt st crs vs as' := by
  obtain ⟨v, hv, hlink⟩ := h
  have hfind : ∀ name : String,
      (vs ++ [w]).find? (fun r => r.columnReference.any (fun cr => cr.column == name)) =
      vs.find? (fun r => r.columnReference.any (fun cr => cr.column == name)) := by
    intro name
    rw [List.find?_append]
    cases hf : vs.find? (fun r => r.columnReference.any (fun cr => cr.column == name)) with
    | some x => rfl
    | none =>
      have hw : (w.columnReference.any (fun cr => cr.column == name)) = false := by
        cases hwc : w.columnReference with
        | none => rfl
        | some wc =>
          by_cases hc : wc.column = name
          · exfalso
            have hvp := List.find?_eq_none.mp hf v hv
            rw [hwc] at hlink
            cases hvc : v.columnReference with
            | none =>
              rw [hvc] at hlink
              exact Option.noConfusion hlink
            | some vc =>
              rw [hvc] at hlink
              simp at hlink
              apply hvp
              rw [hvc]
              simp [Option.any_some, hlink, hc]
          · simp [Option.any_some, hc]
      have hsingle :
          ([w].find? (fun r => r.columnReference.any (fun cr => cr.column == name))) = none := by
        simp [List.find?_cons, hw]
      rw [hsingle]
      rfl
  unfold analyzeColumns
  simp only [hfind]

/-- Witness for `insert_arity_spec` at a concrete two-field, one-value
INSERT statement. -/
theorem insert_arity_spec_witness :
    (analyzeSemantics none (fun _ => false)
        ⟨"INSERT INTO t (a, b) VALUES (x)", 0, 31⟩
        ⟨none, none,
          ⟨[], [⟨"a", "fieldsClause", none, 15, 15⟩, ⟨"b", "fieldsClause", none, 18, 18⟩],
            [⟨"x", "string", "valuesClause", none, 29, 29⟩], []⟩,
          false, MySQLQueryType.QtInsert⟩).filter
      (fun d => d.code == DiagnosticCode.ColumnRowMismatch) =
    (if ([(⟨"a", "fieldsClause", none, 15, 15⟩ : ColumnReference),
          ⟨"b", "fieldsClause", none, 18, 18⟩].filter
            (fun r => r.context == "fieldsClause")).length ≠
        ([(⟨"x", "string", "valuesClause", none, 29, 29⟩ : ValueReference)].filter
            (fun r => r.context == "valuesClause")).length then
      [{ severity := DiagnosticSeverity.Warning
         message := "Column count does not match row count."
         start := 0
         stop := 31
         code := DiagnosticCode.ColumnRowMismatch }]
    else []) :=
  insert_arity_spec none (fun _ => false) _ _ rfl rfl

/-- Witness for `unresolved_table_spec` at a concrete schema with no tables
and a single unresolvable table reference. -/
theorem unresolved_table_spec_witness :
    (∃ d ∈ analyzeTables ⟨⟨"db"⟩, []⟩ (fun _ => false) ⟨"SELECT * FROM t", 0, 15⟩
        ⟨[⟨"t", 14, 14⟩], [], [], []⟩,
      d.severity = DiagnosticSeverity.Warning ∧ d.code = DiagnosticCode.MissingTable ∧
      d.start = 0 + 14 ∧ d.stop = 0 + 14) ∧
    (∀ d ∈ analyzeTables ⟨⟨"db"⟩, []⟩ (fun _ => false) ⟨"SELECT * FROM t", 0, 15⟩
        ⟨[⟨"t", 14, 14⟩], [], [], []⟩,
      (d.code = DiagnosticCode.MissingColumn ∨ d.code = DiagnosticCode.TypeMismatch ∨
       d.code = DiagnosticCode.MissingIndex) →
      ∃ tr' ∈ [(⟨"t", 14, 14⟩ : TableReference)], ∃ st,
        getSchemaTable tr'.table [] [] = some st ∧
        tr'.table ≠ "t" ∧
        d ∈ analyzeColumns (fun _ => false) ⟨"SELECT * FROM t", 0, 15⟩ st
          (List.filter (fun r => r.tableReference.any (fun t => t.table == tr'.table)) [])
          (List.filter (fun r => r.columnReference.any
            (fun cr => cr.tableReference.any (fun t => t.table == tr'.table))) [])
          []) :=
  unresolved_table_spec ⟨⟨"db"⟩, []⟩ (fun _ => false) ⟨"SELECT * FROM t", 0, 15⟩
    ⟨[⟨"t", 14, 14⟩], [], [], []⟩ ⟨"t", 14, 14⟩ (List.mem_singleton.mpr rfl) rfl

/-- Witness for `first_linked_value_spec` at a concrete value-reference
list in which the appended value reference duplicates an existing column
linkage. -/
theorem first_linked_value_spec_witness :
    analyzeColumns (fun _ => false) ⟨"", 0, 0⟩ ⟨"t", []⟩ []
        ([⟨"1", "number", "whereClause", none, 0, 0⟩] ++
          [⟨"2", "number", "whereClause", none, 0, 0⟩]) [] =
      analyzeColumns (fun _ => false) ⟨"", 0, 0⟩ ⟨"t", []⟩ []
        [⟨"1", "number", "whereClause", none, 0, 0⟩] [] :=
  first_linked_value_spec (fun _ => false) ⟨"", 0, 0⟩ ⟨"t", []⟩ []
    [⟨"1", "number", "whereClause", none, 0, 0⟩] ⟨"2", "number", "whereClause", none, 0, 0⟩ []
    ⟨⟨"1", "number", "whereClause", none, 0, 0⟩, List.mem_singleton.mpr rfl, rfl⟩
